import Mathlib

/-!
Shallow embedding of the JRA odds scraper (`src/scraping.py`) together with
proofs of the specified properties.  Odds values are modelled as rationals;
page content is modelled as already-located DOM data, where the presence of a
cell (`count() > 0` in the source) is an `Option`/constructor choice.  Python
dicts are modelled as insertion-ordered association lists.
-/

namespace UmaFriend

/-- A per-race odds record, mirroring the dict returned by `get_race_odds` and
`_extract_odds_from_page` in `scraping.py`. -/
structure RaceOddsRecord where
  race_id : String
  race_name : String
  post_time : String
  tansho : List (Nat × ℚ)
  fukusho : List (Nat × ℚ)
  umaren : List ((Nat × Nat) × ℚ)
  status : String
  message : String
deriving DecidableEq

/-- The date-level report returned by `get_daily_odds`. -/
structure DailyOddsReport where
  date : String
  races : List RaceOddsRecord
  total_races : Nat
  successful_races : Nat
  failed_races : Nat
  status : String
  message : String
deriving DecidableEq

/-- The `place_mapping` table of `JRAOddsScraper.__init__` (lines 23-26). -/
def place_mapping : Nat → Option String := fun c =>
  match c with
  | 1 => some "札幌"
  | 2 => some "函館"
  | 3 => some "福島"
  | 4 => some "新潟"
  | 5 => some "東京"
  | 6 => some "中山"
  | 7 => some "中京"
  | 8 => some "京都"
  | 9 => some "阪神"
  | 10 => some "小倉"
  | _ => none

/-- Line 58: `self.place_mapping.get(place_code, "不明")`. -/
def placeName (c : Nat) : String := (place_mapping c).getD "不明"

/-- Python slicing `s[a:b]` on a string. -/
def slice (s : String) (a b : Nat) : String := ⟨(s.data.drop a).take (b - a)⟩

/-- Numeric value of a decimal digit character. -/
def digitVal (c : Char) : Nat := c.toNat - 48

/-- Python `int` applied to a string of decimal digits. -/
def parseNat (s : String) : Nat := s.data.foldl (fun n c => n * 10 + digitVal c) 0

/-- `int(race_id[a:b])` as used throughout `get_race_odds`. -/
def sliceNat (s : String) (a b : Nat) : Nat := parseNat (slice s a b)

/-- The fields read off a race identifier in `get_race_odds` (lines 52-56). -/
structure ParsedRaceId where
  year : String
  month : String
  day : String
  place_code : Nat
  race_num : Nat
deriving DecidableEq

/-- Lines 52-56 of `get_race_odds`: slice the identifier into its fields. -/
def parseRaceId (race_id : String) : ParsedRaceId :=
  { year := slice race_id 0 4
    month := slice race_id 4 6
    day := slice race_id 6 8
    place_code := sliceNat race_id 4 6
    race_num := sliceNat race_id 8 10 }

/-- Line 74: `f"{int(race_id[6:8])}回{place_name}{int(race_id[8:10])}日"`. -/
def kaisaiName (race_id : String) : String :=
  Nat.repr (sliceNat race_id 6 8) ++ "回" ++ placeName (sliceNat race_id 4 6) ++
    Nat.repr (sliceNat race_id 8 10) ++ "日"

/-- Line 75: `f"{race_num}レース"` where `race_num = int(race_id[8:10])`. -/
def raceLabel (race_id : String) : String :=
  Nat.repr (sliceNat race_id 8 10) ++ "レース"

/-- One row of the `table.tanpuku` table body: the `td.num` cell, the
`td.odds_tan` cell, and the `td.odds_fuku` cell with its `span.min` and
`span.max` sub-values (lines 194-219); `none` means the cell is absent. -/
structure TanpukuRow where
  num : Option Nat
  odds_tan : Option ℚ
  odds_fuku : Option (Option ℚ × Option ℚ)
deriving DecidableEq

/-- The win/place tab as found by `_extract_tanpuku_odds`: the tab link may be
missing, the `table.tanpuku` may be missing, or the table rows are present. -/
inductive TanpukuTab where
  | noTab
  | noTable
  | table (rows : List TanpukuRow)
deriving DecidableEq

/-- Python dict assignment `m[k] = v`: overwrite the entry in place when the
key exists, otherwise append at the end (insertion order preserved). -/
def updAssoc {α : Type} [DecidableEq α] (m : List (α × ℚ)) (k : α) (v : ℚ) :
    List (α × ℚ) :=
  match m with
  | [] => [(k, v)]
  | (a, w) :: rest => if a = k then (k, v) :: rest else (a, w) :: updAssoc rest k v

/-- Python dict lookup `m.get(k)`: the value stored at the first (hence only)
occurrence of the key. -/
def lookupAssoc {α : Type} [DecidableEq α] (m : List (α × ℚ)) (k : α) : Option ℚ :=
  match m with
  | [] => none
  | (a, v) :: rest => if a = k then some v else lookupAssoc rest k

/-- Lines 194-219: process one table row.  A present `td.num` cell is required;
the win odds cell and the place min/max sub-values are read independently, and
the place entry is the midpoint `(low + high) / 2`. -/
def tanpukuStep (acc : List (Nat × ℚ) × List (Nat × ℚ)) (row : TanpukuRow) :
    List (Nat × ℚ) × List (Nat × ℚ) :=
  match row.num with
  | none => acc
  | some umaban =>
    let t := match row.odds_tan with
      | some v => updAssoc acc.1 umaban v
      | none => acc.1
    let f := match row.odds_fuku with
      | some (some lo, some hi) => updAssoc acc.2 umaban ((lo + hi) / 2)
      | _ => acc.2
    (t, f)

/-- `_extract_tanpuku_odds` (lines 170-225): returns the pair
(win map, place map); both are empty when the tab or the table is absent. -/
def extract_tanpuku_odds : TanpukuTab → List (Nat × ℚ) × List (Nat × ℚ)
  | .noTab => ([], [])
  | .noTable => ([], [])
  | .table rows => rows.foldl tanpukuStep ([], [])

/-- One row of a quinella sub-table: the `th` second-horse cell and the `td`
odds cell (lines 275-283). -/
structure UmarenRow where
  second : Option Nat
  odds : Option ℚ
deriving DecidableEq

/-- One `li` sub-table of a `ul.umaren_list` block, labeled by its caption
(the first horse number). -/
structure UmarenBlock where
  caption : Option Nat
  rows : List UmarenRow
deriving DecidableEq

/-- The quinella tab: absent, or the `ul.umaren_list` blocks each holding its
`li` sub-tables. -/
inductive UmarenTab where
  | noTab
  | lists (blocks : List (List UmarenBlock))
deriving DecidableEq

/-- Python `min(keys, key=f)` scan: replace the current best only on a strictly
smaller key value, so the earliest minimal element wins ties. -/
def favGo (best : Nat) (bestV : ℚ) : List (Nat × ℚ) → Nat
  | [] => best
  | (h, v) :: rest => if v < bestV then favGo h v rest else favGo best bestV rest

/-- Line 237: `min(tansho.keys(), key=lambda x: tansho[x])`; `none` when the
win map is empty (the guard at line 233). -/
def favoriteHorse : List (Nat × ℚ) → Option Nat
  | [] => none
  | (h, v) :: rest => some (favGo h v rest)

/-- Lines 275-283: one row of the favorite's sub-table becomes the entry
`(first, second) ↦ odds` when both cells are present. -/
def umarenRowStep (first : Nat) (acc : List ((Nat × Nat) × ℚ))
    (row : UmarenRow) : List ((Nat × Nat) × ℚ) :=
  match row.second, row.odds with
  | some second, some v => updAssoc acc (first, second) v
  | _, _ => acc

/-- Lines 260-284: a sub-table is parsed only when its caption equals the
favorite horse. -/
def umarenBlockStep (fav : Nat) (acc : List ((Nat × Nat) × ℚ))
    (b : UmarenBlock) : List ((Nat × Nat) × ℚ) :=
  match b.caption with
  | none => acc
  | some first =>
    if first = fav then b.rows.foldl (umarenRowStep first) acc else acc

/-- `_extract_umaren_odds` (lines 227-289): empty when the win map is empty
(line 233) or the quinella tab is absent; otherwise only sub-tables captioned
by the favorite contribute entries. -/
def extract_umaren_odds (tab : UmarenTab) (tansho : List (Nat × ℚ)) :
    List ((Nat × Nat) × ℚ) :=
  match favoriteHorse tansho with
  | none => []
  | some fav =>
    match tab with
    | .noTab => []
    | .lists blocks =>
      blocks.foldl (fun acc bl => bl.foldl (umarenBlockStep fav) acc) []

/-- The post-time cell of the race header: absent element, element whose text
does not match the `(\d+)時(\d+)分` pattern, or a matched hour and minute. -/
inductive TimeCell where
  | absent
  | noMatch
  | matched (hour minute : Nat)
deriving DecidableEq

/-- The loaded odds page as seen by `_extract_odds_from_page`. -/
structure OddsPage where
  raceHeader : Option String
  time : TimeCell
  tanpuku : TanpukuTab
  umaren : UmarenTab
deriving DecidableEq

/-- Python `str.zfill(2)`. -/
def zfill2 (s : String) : String := if s.length ≥ 2 then s else "0" ++ s

/-- Lines 119-125: the race name falls back to the sentinel on an absent or
empty header and is stripped otherwise. -/
def raceNameOf (h : Option String) : String :=
  match h with
  | some s => if s = "" then "不明" else s.trim
  | none => "不明"

/-- Lines 128-138: the post time is `HH:MM` on a regex match, else the
sentinel. -/
def postTimeOf : TimeCell → String
  | .matched h m => zfill2 (Nat.repr h) ++ ":" ++ zfill2 (Nat.repr m)
  | _ => "不明"

/-- The error-record shape built identically at lines 104-113, 159-168 and
372-381: empty odds maps, both sentinels, status `error`. -/
def errorRecord (race_id e : String) : RaceOddsRecord :=
  { race_id := race_id
    race_name := "不明"
    post_time := "不明"
    tansho := []
    fukusho := []
    umaren := []
    status := "error"
    message := e }

/-- `_extract_odds_from_page` (lines 115-168).  The `.error` input models an
exception raised inside the body and caught at line 157; on an `.ok` page the
record is always status `success`, every parse failure having been absorbed
into sentinels or empty maps. -/
def extract_odds_from_page (race_id : String) (input : Except String OddsPage) :
    RaceOddsRecord :=
  match input with
  | .error e => errorRecord race_id e
  | .ok page =>
    let tf := extract_tanpuku_odds page.tanpuku
    { race_id := race_id
      race_name := raceNameOf page.raceHeader
      post_time := postTimeOf page.time
      tansho := tf.1
      fukusho := tf.2
      umaren := extract_umaren_odds page.umaren tf.1
      status := "success"
      message := "オッズ取得成功" }

/-- Environment of one `get_race_odds` call: either some step before the odds
page raised (caught by the handler at line 102), or the page was reached and
the extractor ran on the given input. -/
inductive FetchEnv where
  | navFail (e : String)
  | reached (input : Except String OddsPage)

/-- `get_race_odds` (lines 40-113). -/
def get_race_odds (race_id : String) (env : FetchEnv) : RaceOddsRecord :=
  match env with
  | .navFail e => errorRecord race_id e
  | .reached input => extract_odds_from_page race_id input

/-- Outcome of one iteration of the batch loop: the call to `get_race_odds`
returned a record, or an exception escaped the per-race fetch and was caught
by the handler at line 370. -/
inductive RaceOutcome where
  | raised (e : String)
  | fetched (env : FetchEnv)

/-- The per-race loop of `get_daily_odds` (lines 349-383): one record per
identifier, counting successes and failures; an escaped exception appends the
error-record shape and counts as a failure. -/
def dailyLoop (outcomes : Nat → RaceOutcome) :
    List String → Nat → List RaceOddsRecord × Nat × Nat
  | [], _ => ([], 0, 0)
  | id :: rest, i =>
    match outcomes i with
    | .raised e =>
      let r := dailyLoop outcomes rest (i + 1)
      (errorRecord id e :: r.1, r.2.1, r.2.2 + 1)
    | .fetched env =>
      let rcd := get_race_odds id env
      let r := dailyLoop outcomes rest (i + 1)
      if rcd.status = "success" then (rcd :: r.1, r.2.1 + 1, r.2.2)
      else (rcd :: r.1, r.2.1, r.2.2 + 1)

/-- Line 325: `date.replace('-', '')`. -/
def normalizeDate (date : String) : String := ⟨date.data.filter (fun c => c != '-')⟩

/-- `get_daily_odds` (lines 293-405); the race-identifier resolver
(`_get_race_ids_for_date`) is an external collaborator passed as a function,
and `outcomes` gives each iteration's per-race outcome. -/
def get_daily_odds (date : String) (resolver : String → List String)
    (outcomes : Nat → RaceOutcome) : DailyOddsReport :=
  let d := normalizeDate date
  if d.length ≠ 8 then
    { date := d, races := [], total_races := 0, successful_races := 0,
      failed_races := 0, status := "error",
      message := "日付は8桁の数字である必要があります (例: 20250113)" }
  else
    let race_ids := resolver d
    if race_ids.isEmpty then
      { date := d, races := [], total_races := 0, successful_races := 0,
        failed_races := 0, status := "error",
        message := "日付 " ++ d ++ " のレースが見つかりません" }
    else
      let r := dailyLoop outcomes race_ids 0
      { date := d, races := r.1, total_races := race_ids.length,
        successful_races := r.2.1, failed_races := r.2.2,
        status := if r.2.1 > 0 then "success" else "error",
        message := "成功: " ++ Nat.repr r.2.1 ++ "レース, 失敗: " ++
          Nat.repr r.2.2 ++ "レース" }

/-- Line 499: `re.match(r'^\d{10}$', race_id)`. -/
def raceIdFormatOk (s : String) : Bool :=
  s.length == 10 && s.data.all (fun c => c.isDigit)

/-- Result of the single-race mode of `main`. -/
inductive MainResult where
  | rejected
  | fetched (r : RaceOddsRecord)
deriving DecidableEq

/-- Single-race mode of `main` (lines 494-506): a malformed identifier exits
before any fetch is attempted. -/
def mainSingle (race_id : String) (env : FetchEnv) : MainResult :=
  if raceIdFormatOk race_id then .fetched (get_race_odds race_id env)
  else .rejected

/-- Resource events of one `get_race_odds` call (lines 62-100): entering and
leaving the `async_playwright` scope, launching the browser, creating the
context and the page, and the two closes of the `finally` block. -/
inductive SessionEvent where
  | pwStart
  | launch
  | newContext
  | newPage
  | contextClose
  | browserClose
  | pwStop
deriving DecidableEq

/-- Which steps of one `get_race_odds` session succeed: a `false` flag means
that step raises; `body` is the outcome of the guarded block (navigation and
extraction, lines 67-96). -/
structure SessionEnv where
  launchOk : Bool
  contextOk : Bool
  pageOk : Bool
  body : FetchEnv

/-- Event trace of one `get_race_odds` call.  The `try/finally` at lines 67-100
only guards the block from `page.goto` on, so a failure in `launch`,
`new_context` or `new_page` skips both explicit closes; the `async with` exit
always runs.  Once the page exists, the `finally` closes context then browser
on every exit of the guarded block, normal return or raised error alike. -/
def sessionEvents (env : SessionEnv) : List SessionEvent :=
  if ¬env.launchOk then [.pwStart, .pwStop]
  else if ¬env.contextOk then [.pwStart, .launch, .pwStop]
  else if ¬env.pageOk then [.pwStart, .launch, .newContext, .pwStop]
  else [.pwStart, .launch, .newContext, .newPage, .contextClose, .browserClose,
    .pwStop]

/-- The decimal digit characters. -/
def digitChar (k : Nat) : Char := Char.ofNat (48 + k)

/-- The canonical 2-digit rendering of a number below 100. -/
def pad2 (n : Nat) : String := ⟨[digitChar (n / 10 % 10), digitChar (n % 10)]⟩

/-- The canonical 4-digit rendering of a number below 10000. -/
def pad4 (n : Nat) : String :=
  ⟨[digitChar (n / 1000 % 10), digitChar (n / 100 % 10), digitChar (n / 10 % 10),
    digitChar (n % 10)]⟩

/-- A race identifier in the fixed 10-character format of spec §3: 4-digit
year, 2-digit venue code, 2-digit day of meeting, 2-digit race number. -/
def mkRaceId (y v d r : Nat) : String := pad4 y ++ pad2 v ++ pad2 d ++ pad2 r

/-- The venue label exactly as the spec's words describe it (§3): known codes
map to their display name, unknown codes to an "unknown(code)" label carrying
the code.  Stated for comparison with `placeName`, the label the source
computes. -/
def specVenueLabel (c : Nat) : String :=
  match place_mapping c with
  | some n => n
  | none => "unknown(" ++ Nat.repr c ++ ")"

/-- The win-odds map of the spec's concrete example:
`{1: 2.1, 2: 5.4, 3: 1.8}`. -/
def exampleTansho : List (Nat × ℚ) := [(1, 21/10), (2, 27/5), (3, 9/5)]

/-- The horse numbers exposed by the rows of a win/place table. -/
def rowNums (rows : List TanpukuRow) : List Nat :=
  rows.filterMap (fun r => r.num)

/-- An error record exposes no data: all three odds maps empty and both
identification fields set to the unknown sentinel. -/
def isBlankError (r : RaceOddsRecord) : Prop :=
  r.tansho = [] ∧ r.fukusho = [] ∧ r.umaren = [] ∧
    r.race_name = "不明" ∧ r.post_time = "不明"

/-- Outcome list of a concrete batch, as a per-index outcome function. -/
def outcomesOf (l : List RaceOutcome) : Nat → RaceOutcome :=
  fun i => l.getD i (.raised "")

/-- A reached odds page on which every parse step fails: empty header text, an
unmatched time text, a win/place table whose only row lacks its horse-number
cell, and a quinella sub-table without a caption. -/
def allFailPage : OddsPage :=
  { raceHeader := some ""
    time := .noMatch
    tanpuku := .table [⟨none, some 5, none⟩]
    umaren := .lists [[⟨none, []⟩]] }

/-! ### Association-list lemmas -/

theorem mem_updAssoc {α : Type} [DecidableEq α] {m : List (α × ℚ)} {k : α}
    {v : ℚ} {p : α × ℚ} (hp : p ∈ updAssoc m k v) : p ∈ m ∨ p.1 = k := by
  induction m with
  | nil =>
    right
    rw [List.mem_singleton.1 hp]
  | cons a rest ih =>
    obtain ⟨a1, a2⟩ := a
    by_cases hak : a1 = k
    · rw [updAssoc, if_pos hak] at hp
      rcases List.mem_cons.1 hp with h | h
      · right
        rw [h]
      · exact Or.inl (List.mem_cons_of_mem _ h)
    · rw [updAssoc, if_neg hak] at hp
      rcases List.mem_cons.1 hp with h | h
      · exact Or.inl (h ▸ List.mem_cons_self _ _)
      · rcases ih h with h' | h'
        · exact Or.inl (List.mem_cons_of_mem _ h')
        · exact Or.inr h'

theorem lookupAssoc_updAssoc_self {α : Type} [DecidableEq α]
    (m : List (α × ℚ)) (k : α) (v : ℚ) :
    lookupAssoc (updAssoc m k v) k = some v := by
  induction m with
  | nil => simp [updAssoc, lookupAssoc]
  | cons a rest ih =>
    obtain ⟨a1, a2⟩ := a
    by_cases hak : a1 = k
    · rw [updAssoc, if_pos hak]
      simp [lookupAssoc]
    · rw [updAssoc, if_neg hak]
      rw [lookupAssoc, if_neg hak]
      exact ih

theorem lookupAssoc_updAssoc_ne {α : Type} [DecidableEq α]
    (m : List (α × ℚ)) (k k' : α) (v : ℚ) (hne : k' ≠ k) :
    lookupAssoc (updAssoc m k v) k' = lookupAssoc m k' := by
  have hkk : ¬ k = k' := fun hc => hne hc.symm
  induction m with
  | nil =>
    rw [updAssoc]
    simp [lookupAssoc, hkk]
  | cons a rest ih =>
    obtain ⟨a1, a2⟩ := a
    by_cases hak : a1 = k
    · rw [updAssoc, if_pos hak]
      rw [lookupAssoc, if_neg hkk, lookupAssoc]
      rw [show a1 = k from hak, if_neg hkk]
    · rw [updAssoc, if_neg hak]
      rw [lookupAssoc, lookupAssoc]
      by_cases hak' : a1 = k'
      · rw [if_pos hak', if_pos hak']
      · rw [if_neg hak', if_neg hak']
        exact ih

/-! ### The favorite horse is a minimizer of the win-odds map -/

theorem favGo_spec (l : List (Nat × ℚ)) : ∀ b bv, ∃ av,
    (favGo b bv l, av) ∈ (b, bv) :: l ∧ av ≤ bv ∧ ∀ p ∈ l, av ≤ p.2 := by
  induction l with
  | nil =>
    intro b bv
    exact ⟨bv, by simp [favGo], le_refl _, by simp⟩
  | cons q rest ih =>
    obtain ⟨qh, qv⟩ := q
    intro b bv
    by_cases hlt : qv < bv
    · obtain ⟨av, hmem, hle, hall⟩ := ih qh qv
      refine ⟨av, ?_, le_trans hle (le_of_lt hlt), ?_⟩
      · have hgo : favGo b bv ((qh, qv) :: rest) = favGo qh qv rest := by
          simp [favGo, hlt]
        rw [hgo]
        exact List.mem_cons_of_mem _ hmem
      · intro p hp
        rcases List.mem_cons.1 hp with hp | hp
        · rw [hp]
          exact hle
        · exact hall p hp
    · obtain ⟨av, hmem, hle, hall⟩ := ih b bv
      refine ⟨av, ?_, hle, ?_⟩
      · have hgo : favGo b bv ((qh, qv) :: rest) = favGo b bv rest := by
          simp [favGo, hlt]
        rw [hgo]
        rcases List.mem_cons.1 hmem with hm | hm
        · exact hm ▸ List.mem_cons_self _ _
        · exact List.mem_cons_of_mem _ (List.mem_cons_of_mem _ hm)
      · intro p hp
        rcases List.mem_cons.1 hp with hp | hp
        · rw [hp]
          exact le_trans hle (not_lt.1 hlt)
        · exact hall p hp

theorem favoriteHorse_spec {m : List (Nat × ℚ)} {a : Nat}
    (h : favoriteHorse m = some a) :
    ∃ av, (a, av) ∈ m ∧ ∀ p ∈ m, av ≤ p.2 := by
  match m, h with
  | (h₀, v₀) :: rest, h =>
    have ha : a = favGo h₀ v₀ rest := by
      simpa [favoriteHorse] using h.symm
    obtain ⟨av, hmem, hle, hall⟩ := favGo_spec rest h₀ v₀
    refine ⟨av, ha ▸ hmem, ?_⟩
    intro p hp
    rcases List.mem_cons.1 hp with hp | hp
    · rw [hp]
      exact hle
    · exact hall p hp

/-! ### Every quinella key is anchored at the favorite -/

theorem foldl_umarenRowStep_fst (first : Nat) (rows : List UmarenRow)
    (acc : List ((Nat × Nat) × ℚ)) (h : ∀ p ∈ acc, p.1.1 = first) :
    ∀ p ∈ rows.foldl (umarenRowStep first) acc, p.1.1 = first := by
  induction rows generalizing acc with
  | nil => exact h
  | cons row rest ih =>
    refine ih _ ?_
    intro p hp
    unfold umarenRowStep at hp
    rcases hrow : row.second with _ | second <;> rw [hrow] at hp
    · exact h p hp
    · rcases hodds : row.odds with _ | v <;> rw [hodds] at hp
      · exact h p hp
      · rcases mem_updAssoc hp with hm | hm
        · exact h p hm
        · rw [hm]

theorem foldl_umarenBlockStep_fst (fav : Nat) (bl : List UmarenBlock)
    (acc : List ((Nat × Nat) × ℚ)) (h : ∀ p ∈ acc, p.1.1 = fav) :
    ∀ p ∈ bl.foldl (umarenBlockStep fav) acc, p.1.1 = fav := by
  induction bl generalizing acc with
  | nil => exact h
  | cons b rest ih =>
    refine ih _ ?_
    unfold umarenBlockStep
    rcases hcap : b.caption with _ | first
    · exact h
    · by_cases hfav : first = fav
      · simp only [hfav, if_pos rfl]
        subst hfav
        exact foldl_umarenRowStep_fst first b.rows acc h
      · simp only [if_neg hfav]
        exact h

theorem foldl_umarenBlocks_fst (fav : Nat) (blocks : List (List UmarenBlock))
    (acc : List ((Nat × Nat) × ℚ)) (h : ∀ p ∈ acc, p.1.1 = fav) :
    ∀ p ∈ blocks.foldl (fun acc bl => bl.foldl (umarenBlockStep fav) acc) acc,
      p.1.1 = fav := by
  induction blocks generalizing acc with
  | nil => exact h
  | cons bl rest ih => exact ih _ (foldl_umarenBlockStep_fst fav bl acc h)

theorem extract_umaren_fst (tab : UmarenTab) (tansho : List (Nat × ℚ))
    (fav : Nat) (hfav : favoriteHorse tansho = some fav) :
    ∀ p ∈ extract_umaren_odds tab tansho, p.1.1 = fav := by
  unfold extract_umaren_odds
  rw [hfav]
  rcases tab with _ | blocks
  · simp
  · exact foldl_umarenBlocks_fst fav blocks [] (by simp)

/-- C1.  For every extracted race, every key `(a, b)` of the quinella map has
`a` equal to the favorite: a horse of the already-extracted win map whose odds
are minimal over that map.  When the win map is empty, the quinella map is
empty.  On the spec's concrete win map `{1: 2.1, 2: 5.4, 3: 1.8}` every key
has first component 3. -/
theorem C1_quinella_favorite_anchor (tansho : List (Nat × ℚ)) (tab : UmarenTab) :
    (∀ p ∈ extract_umaren_odds tab tansho,
      ∃ av, (p.1.1, av) ∈ tansho ∧ ∀ q ∈ tansho, av ≤ q.2)
    ∧ (tansho = [] → extract_umaren_odds tab tansho = [])
    ∧ (∀ p ∈ extract_umaren_odds tab exampleTansho, p.1.1 = 3) := by
  refine ⟨?_, ?_, ?_⟩
  · intro p hp
    rcases hfav : favoriteHorse tansho with _ | fav
    · unfold extract_umaren_odds at hp
      rw [hfav] at hp
      simp at hp
    · obtain ⟨av, hmem, hall⟩ := favoriteHorse_spec hfav
      have hfst := extract_umaren_fst tab tansho fav hfav p hp
      exact ⟨av, hfst ▸ hmem, hall⟩
  · intro h
    subst h
    rfl
  · intro p hp
    have hfav : favoriteHorse exampleTansho = some 3 := by
      have h1 : ¬ ((27 : ℚ) / 5 < 21 / 10) := by norm_num
      have h2 : (9 : ℚ) / 5 < 21 / 10 := by norm_num
      simp [exampleTansho, favoriteHorse, favGo, h1, h2]
    exact extract_umaren_fst tab exampleTansho 3 hfav p hp

/-- Witness for C1 at concrete inputs: a win map whose favorite is horse 2, a
quinella tab holding sub-tables captioned 2 and 3, and the single extracted
key (2, 7); the empty-map case; and the spec's example map with its key
anchored at horse 3. -/
theorem C1_quinella_favorite_anchor_witness :
    (∃ av, ((2 : Nat), av) ∈ [((5 : Nat), (3 : ℚ)), (2, 1)] ∧
      ∀ q ∈ [((5 : Nat), (3 : ℚ)), (2, 1)], av ≤ q.2)
    ∧ extract_umaren_odds
        (.lists [[⟨some 2, [⟨some 7, some 12⟩]⟩, ⟨some 3, [⟨some 1, some 5⟩]⟩]])
        [] = []
    ∧ ((((3 : Nat), (1 : Nat)), (5 : ℚ)) : (Nat × Nat) × ℚ).1.1 = 3 := by
  refine ⟨?_, ?_, ?_⟩
  · exact (C1_quinella_favorite_anchor [(5, 3), (2, 1)]
      (.lists [[⟨some 2, [⟨some 7, some 12⟩]⟩, ⟨some 3, [⟨some 1, some 5⟩]⟩]])).1
      ((2, 7), 12) (by decide)
  · exact (C1_quinella_favorite_anchor []
      (.lists [[⟨some 2, [⟨some 7, some 12⟩]⟩, ⟨some 3, [⟨some 1, some 5⟩]⟩]])).2.1
      rfl
  · exact (C1_quinella_favorite_anchor exampleTansho
      (.lists [[⟨some 2, [⟨some 7, some 12⟩]⟩, ⟨some 3, [⟨some 1, some 5⟩]⟩]])).2.2
      (((3, 1), 5)) (by
        have h1 : ¬ ((27 : ℚ) / 5 < 21 / 10) := by norm_num
        have h2 : (9 : ℚ) / 5 < 21 / 10 := by norm_num
        simp [extract_umaren_odds, exampleTansho, favoriteHorse, favGo, h1, h2,
          umarenBlockStep, umarenRowStep, updAssoc])

/-! ### Batch loop invariants -/

theorem dailyLoop_counts (outcomes : Nat → RaceOutcome) (ids : List String) :
    ∀ i, (dailyLoop outcomes ids i).2.1 + (dailyLoop outcomes ids i).2.2 =
        ids.length ∧
      (dailyLoop outcomes ids i).1.length = ids.length := by
  induction ids with
  | nil => intro i; simp [dailyLoop]
  | cons id rest ih =>
    intro i
    obtain ⟨hsum, hlen⟩ := ih (i + 1)
    rcases h : outcomes i with e | env
    · simp only [dailyLoop, h]
      constructor
      · simp only [List.length_cons]
        omega
      · simp [hlen]
    · simp only [dailyLoop, h]
      by_cases hs : (get_race_odds id env).status = "success"
      · rw [if_pos hs]
        constructor
        · simp only [List.length_cons]
          omega
        · simp [hlen]
      · rw [if_neg hs]
        constructor
        · simp only [List.length_cons]
          omega
        · simp [hlen]

/-- C2.  Every report produced by `get_daily_odds` satisfies
`successful_races + failed_races = total_races = races.length`, for every
date, every resolver output, and every per-race outcome (success record,
error record, or exception escaping the per-race fetch). -/
theorem C2_batch_count_invariant (date : String) (resolver : String → List String)
    (outcomes : Nat → RaceOutcome) :
    (get_daily_odds date resolver outcomes).successful_races +
        (get_daily_odds date resolver outcomes).failed_races =
      (get_daily_odds date resolver outcomes).total_races ∧
    (get_daily_odds date resolver outcomes).total_races =
      (get_daily_odds date resolver outcomes).races.length := by
  unfold get_daily_odds
  by_cases hlen : (normalizeDate date).length ≠ 8
  · rw [if_pos hlen]
    exact ⟨rfl, rfl⟩
  · rw [if_neg hlen]
    by_cases hids : (resolver (normalizeDate date)).isEmpty
    · rw [if_pos hids]
      exact ⟨rfl, rfl⟩
    · rw [if_neg hids]
      obtain ⟨hsum, hl⟩ := dailyLoop_counts outcomes (resolver (normalizeDate date)) 0
      exact ⟨hsum, hl.symm⟩

/-- C3.  A failing second fetch in a batch of three (whether it returned an
error record or its exception escaped the fetch) leaves records 1 and 3 with
status `success`, turns record 2 into the error record carrying the identifier
and message, and yields `failed_races = 1`. -/
theorem C3_partial_failure (id1 id2 id3 : String) (p1 p3 : OddsPage)
    (o2 : RaceOutcome) (e : String)
    (h2 : o2 = .raised e ∨ o2 = .fetched (.navFail e)) :
    ((get_daily_odds "20250113" (fun _ => [id1, id2, id3])
        (outcomesOf [.fetched (.reached (.ok p1)), o2,
          .fetched (.reached (.ok p3))])).races.map (fun r => r.status) =
      ["success", "error", "success"]) ∧
    (get_daily_odds "20250113" (fun _ => [id1, id2, id3])
        (outcomesOf [.fetched (.reached (.ok p1)), o2,
          .fetched (.reached (.ok p3))])).races.length = 3 ∧
    (get_daily_odds "20250113" (fun _ => [id1, id2, id3])
        (outcomesOf [.fetched (.reached (.ok p1)), o2,
          .fetched (.reached (.ok p3))])).failed_races = 1 ∧
    (get_daily_odds "20250113" (fun _ => [id1, id2, id3])
        (outcomesOf [.fetched (.reached (.ok p1)), o2,
          .fetched (.reached (.ok p3))])).races.get? 1 =
      some (errorRecord id2 e) := by
  rcases h2 with h2 | h2 <;>
    subst h2 <;>
      simp [get_daily_odds, normalizeDate, dailyLoop, outcomesOf, get_race_odds,
        extract_odds_from_page, errorRecord,
        show (("20250113" : String).length = 8) from by decide]

/-- Witness for C3 at concrete identifiers and pages, with the second race's
exception escaping the fetch. -/
theorem C3_partial_failure_witness :
    ((get_daily_odds "20250113" (fun _ => ["r1", "r2", "r3"])
        (outcomesOf [.fetched (.reached (.ok allFailPage)), .raised "boom",
          .fetched (.reached (.ok allFailPage))])).races.map (fun r => r.status) =
      ["success", "error", "success"]) ∧
    (get_daily_odds "20250113" (fun _ => ["r1", "r2", "r3"])
        (outcomesOf [.fetched (.reached (.ok allFailPage)), .raised "boom",
          .fetched (.reached (.ok allFailPage))])).races.length = 3 ∧
    (get_daily_odds "20250113" (fun _ => ["r1", "r2", "r3"])
        (outcomesOf [.fetched (.reached (.ok allFailPage)), .raised "boom",
          .fetched (.reached (.ok allFailPage))])).failed_races = 1 ∧
    (get_daily_odds "20250113" (fun _ => ["r1", "r2", "r3"])
        (outcomesOf [.fetched (.reached (.ok allFailPage)), .raised "boom",
          .fetched (.reached (.ok allFailPage))])).races.get? 1 =
      some (errorRecord "r2" "boom") :=
  C3_partial_failure "r1" "r2" "r3" allFailPage allFailPage (.raised "boom")
    "boom" (Or.inl rfl)

/-- C7.  When the resolver yields no identifiers for a well-formed date, the
batch returns immediately an error report with an empty race sequence, zero
counts and a non-empty message. -/
theorem C7_empty_resolver (date : String) (outcomes : Nat → RaceOutcome)
    (h : (normalizeDate date).length = 8) :
    get_daily_odds date (fun _ => []) outcomes =
      { date := normalizeDate date, races := [], total_races := 0,
        successful_races := 0, failed_races := 0, status := "error",
        message := "日付 " ++ normalizeDate date ++ " のレースが見つかりません" } ∧
    (get_daily_odds date (fun _ => []) outcomes).message ≠ "" := by
  have h1 : get_daily_odds date (fun _ => []) outcomes =
      { date := normalizeDate date, races := [], total_races := 0,
        successful_races := 0, failed_races := 0, status := "error",
        message := "日付 " ++ normalizeDate date ++ " のレースが見つかりません" } := by
    unfold get_daily_odds
    rw [if_neg (by rw [h]; exact fun hc => hc rfl)]
    rfl
  refine ⟨h1, ?_⟩
  rw [h1]
  intro hc
  have hlen := congrArg String.length hc
  rw [String.length_append, String.length_append] at hlen
  have e1 : ("日付 " : String).length = 3 := by decide
  have e2 : (" のレースが見つかりません" : String).length = 13 := by decide
  have e3 : ("" : String).length = 0 := rfl
  rw [e1, e2, e3, h] at hlen
  omega

/-- Witness for C7 at the concrete date `2025-01-13`. -/
theorem C7_empty_resolver_witness :
    get_daily_odds "2025-01-13" (fun _ => []) (fun _ => .raised "") =
      { date := "20250113", races := [], total_races := 0,
        successful_races := 0, failed_races := 0, status := "error",
        message := "日付 20250113 のレースが見つかりません" } ∧
    (get_daily_odds "2025-01-13" (fun _ => []) (fun _ => .raised "")).message ≠ "" := by
  have h := C7_empty_resolver "2025-01-13" (fun _ => .raised "") (by decide)
  constructor
  · rw [h.1]
    decide
  · exact h.2

/-- C8.  Reaching the odds page always yields a success-status record, even
when every parse step failed: on a page whose header is empty, whose time text
matches nothing and whose tables expose no parsable row, the record still has
status `success`, all three maps empty, and both sentinels. -/
theorem C8_success_reflects_page_reached (race_id : String) (page : OddsPage) :
    (extract_odds_from_page race_id (.ok page)).status = "success" ∧
    extract_odds_from_page race_id (.ok allFailPage) =
      { race_id := race_id, race_name := "不明", post_time := "不明",
        tansho := [], fukusho := [], umaren := [], status := "success",
        message := "オッズ取得成功" } :=
  ⟨rfl, rfl⟩

/-! ### Error records never expose data -/

theorem errorRecord_blank (race_id e : String) :
    isBlankError (errorRecord race_id e) :=
  ⟨rfl, rfl, rfl, rfl, rfl⟩

theorem get_race_odds_error_blank (race_id : String) (env : FetchEnv)
    (h : (get_race_odds race_id env).status = "error") :
    isBlankError (get_race_odds race_id env) := by
  rcases env with e | input
  · exact errorRecord_blank race_id e
  · rcases input with e | page
    · exact errorRecord_blank race_id e
    · exact absurd h (by simp [get_race_odds, extract_odds_from_page])

theorem dailyLoop_error_blank (outcomes : Nat → RaceOutcome)
    (ids : List String) : ∀ i, ∀ r ∈ (dailyLoop outcomes ids i).1,
      r.status = "error" → isBlankError r := by
  induction ids with
  | nil => intro i r hr; simp [dailyLoop] at hr
  | cons id rest ih =>
    intro i r hr hstatus
    rcases h : outcomes i with e | env <;> rw [dailyLoop, h] at hr
    · rcases List.mem_cons.1 hr with hr | hr
      · rw [hr]
        exact errorRecord_blank id e
      · exact ih (i + 1) r hr hstatus
    · by_cases hs : (get_race_odds id env).status = "success" <;>
        simp only [if_pos, if_neg, hs, if_true, if_false] at hr
      · rcases List.mem_cons.1 hr with hr | hr
        · rw [hr] at hstatus
          rw [hstatus] at hs
          exact absurd hs (by decide)
        · exact ih (i + 1) r hr hstatus
      · rcases List.mem_cons.1 hr with hr | hr
        · rw [hr]
          exact get_race_odds_error_blank id env (hr ▸ hstatus)
        · exact ih (i + 1) r hr hstatus

/-- C10.  Every record with status `error` produced by the single-race fetch,
by the page extractor, or by the batch loop carries all three odds maps empty
and both identification fields set to the sentinel `不明`. -/
theorem C10_error_records_blank :
    (∀ race_id env, (get_race_odds race_id env).status = "error" →
      isBlankError (get_race_odds race_id env)) ∧
    (∀ race_id input, (extract_odds_from_page race_id input).status = "error" →
      isBlankError (extract_odds_from_page race_id input)) ∧
    (∀ date resolver outcomes,
      ∀ r ∈ (get_daily_odds date resolver outcomes).races,
        r.status = "error" → isBlankError r) := by
  refine ⟨get_race_odds_error_blank, ?_, ?_⟩
  · intro race_id input h
    rcases input with e | page
    · exact errorRecord_blank race_id e
    · exact absurd h (by simp [extract_odds_from_page])
  · intro date resolver outcomes r hr hstatus
    unfold get_daily_odds at hr
    by_cases hlen : (normalizeDate date).length ≠ 8
    · rw [if_pos hlen] at hr
      simp at hr
    · rw [if_neg hlen] at hr
      by_cases hids : (resolver (normalizeDate date)).isEmpty
      · rw [if_pos hids] at hr
        simp at hr
      · rw [if_neg hids] at hr
        exact dailyLoop_error_blank outcomes (resolver (normalizeDate date)) 0 r
          hr hstatus

/-- Witness for C10: the error record of a failed navigation is blank. -/
theorem C10_error_records_blank_witness :
    isBlankError (get_race_odds "2025060101" (.navFail "timeout")) :=
  C10_error_records_blank.1 "2025060101" (.navFail "timeout") rfl

/-! ### Win/place extraction: midpoint and omission -/

theorem tanpukuStep_fst_other (acc : List (Nat × ℚ) × List (Nat × ℚ))
    (row : TanpukuRow) (h u : Nat) (hnum : row.num = some u) (hu : h ≠ u) :
    lookupAssoc (tanpukuStep acc row).1 h = lookupAssoc acc.1 h := by
  rcases htan : row.odds_tan with _ | v
  · simp only [tanpukuStep, hnum, htan]
  · simp only [tanpukuStep, hnum, htan]
    exact lookupAssoc_updAssoc_ne _ _ _ _ hu

theorem tanpukuStep_snd_other (acc : List (Nat × ℚ) × List (Nat × ℚ))
    (row : TanpukuRow) (h u : Nat) (hnum : row.num = some u) (hu : h ≠ u) :
    lookupAssoc (tanpukuStep acc row).2 h = lookupAssoc acc.2 h := by
  rcases hf : row.odds_fuku with _ | ⟨lo?, hi?⟩
  · simp only [tanpukuStep, hnum, hf]
  · rcases lo? with _ | lo
    · simp only [tanpukuStep, hnum, hf]
    · rcases hi? with _ | hi
      · simp only [tanpukuStep, hnum, hf]
      · simp only [tanpukuStep, hnum, hf]
        exact lookupAssoc_updAssoc_ne _ _ _ _ hu

theorem tanpukuStep_snd_nofuku (acc : List (Nat × ℚ) × List (Nat × ℚ))
    (row : TanpukuRow) (u : Nat) (hnum : row.num = some u)
    (hfuku : ∀ lo hi, row.odds_fuku ≠ some (some lo, some hi)) :
    lookupAssoc (tanpukuStep acc row).2 u = lookupAssoc acc.2 u := by
  rcases hf : row.odds_fuku with _ | ⟨lo?, hi?⟩
  · simp only [tanpukuStep, hnum, hf]
  · rcases lo? with _ | lo
    · simp only [tanpukuStep, hnum, hf]
    · rcases hi? with _ | hi
      · simp only [tanpukuStep, hnum, hf]
      · exact absurd hf (hfuku lo hi)

theorem tanpukuStep_other (acc : List (Nat × ℚ) × List (Nat × ℚ))
    (row : TanpukuRow) (h : Nat) (hne : row.num ≠ some h) :
    lookupAssoc (tanpukuStep acc row).1 h = lookupAssoc acc.1 h ∧
    lookupAssoc (tanpukuStep acc row).2 h = lookupAssoc acc.2 h := by
  rcases hnum : row.num with _ | u
  · simp [tanpukuStep, hnum]
  · have hu : h ≠ u := fun hc => hne (by rw [hnum, hc])
    exact ⟨tanpukuStep_fst_other acc row h u hnum hu,
      tanpukuStep_snd_other acc row h u hnum hu⟩

theorem foldl_tanpukuStep_other (rows : List TanpukuRow)
    (acc : List (Nat × ℚ) × List (Nat × ℚ)) (h : Nat)
    (hrows : ∀ row ∈ rows, row.num ≠ some h) :
    lookupAssoc (rows.foldl tanpukuStep acc).1 h = lookupAssoc acc.1 h ∧
    lookupAssoc (rows.foldl tanpukuStep acc).2 h = lookupAssoc acc.2 h := by
  induction rows generalizing acc with
  | nil => exact ⟨rfl, rfl⟩
  | cons row rest ih =>
    have hrow := hrows row (List.mem_cons_self _ _)
    have hrest : ∀ r ∈ rest, r.num ≠ some h :=
      fun r hr => hrows r (List.mem_cons_of_mem _ hr)
    obtain ⟨ht, hf⟩ := tanpukuStep_other acc row h hrow
    obtain ⟨ht', hf'⟩ := ih (tanpukuStep acc row) hrest
    exact ⟨ht'.trans ht, hf'.trans hf⟩

/-- C4.  In the win/place extraction, a row exposing both place sub-values
contributes the exact midpoint `(low + high) / 2` (which lies between the
bounds when `low ≤ high`); a row missing the win cell or one of the place
sub-values is omitted from that map and only that map.  Horse numbers are
assumed unique within the table, as the spec's data model requires. -/
theorem C4_place_midpoint (rows : List TanpukuRow) (row : TanpukuRow) (h : Nat)
    (hmem : row ∈ rows) (hnum : row.num = some h)
    (hnodup : (rowNums rows).Nodup) :
    (∀ lo hi, row.odds_fuku = some (some lo, some hi) →
      lookupAssoc (extract_tanpuku_odds (.table rows)).2 h =
          some ((lo + hi) / 2) ∧
        (lo ≤ hi → lo ≤ (lo + hi) / 2 ∧ (lo + hi) / 2 ≤ hi)) ∧
    (∀ v, row.odds_tan = some v →
      lookupAssoc (extract_tanpuku_odds (.table rows)).1 h = some v) ∧
    (row.odds_tan = none →
      lookupAssoc (extract_tanpuku_odds (.table rows)).1 h = none) ∧
    ((∀ lo hi, row.odds_fuku ≠ some (some lo, some hi)) →
      lookupAssoc (extract_tanpuku_odds (.table rows)).2 h = none) := by
  obtain ⟨l1, l2, hsplit⟩ := List.append_of_mem hmem
  subst hsplit
  have hnums : rowNums (l1 ++ row :: l2) =
      rowNums l1 ++ h :: rowNums l2 := by
    simp [rowNums, List.filterMap_append, List.filterMap_cons, hnum]
  rw [hnums] at hnodup
  rw [List.nodup_append] at hnodup
  obtain ⟨hn1, hn2, hdisj⟩ := hnodup
  have hh2 : h ∉ rowNums l2 := (List.nodup_cons.1 hn2).1
  have hh1 : h ∉ rowNums l1 := fun hc => hdisj hc (List.mem_cons_self _ _)
  have hl1 : ∀ r ∈ l1, r.num ≠ some h := by
    intro r hr hc
    exact hh1 (List.mem_filterMap.2 ⟨r, hr, hc⟩)
  have hl2 : ∀ r ∈ l2, r.num ≠ some h := by
    intro r hr hc
    exact hh2 (List.mem_filterMap.2 ⟨r, hr, hc⟩)
  have hfold : extract_tanpuku_odds (.table (l1 ++ row :: l2)) =
      l2.foldl tanpukuStep (tanpukuStep (l1.foldl tanpukuStep ([], [])) row) := by
    rw [extract_tanpuku_odds, List.foldl_append]
    rfl
  obtain ⟨hb1, hb2⟩ := foldl_tanpukuStep_other l1 ([], []) h hl1
  obtain ⟨ha1, ha2⟩ :=
    foldl_tanpukuStep_other l2 (tanpukuStep (l1.foldl tanpukuStep ([], [])) row)
      h hl2
  refine ⟨?_, ?_, ?_, ?_⟩
  · intro lo hi hfuku
    constructor
    · rw [hfold, ha2]
      simp only [tanpukuStep, hnum, hfuku]
      exact lookupAssoc_updAssoc_self _ _ _
    · intro hle
      constructor <;> [linarith; linarith]
  · intro v htan
    rw [hfold, ha1]
    simp only [tanpukuStep, hnum, htan]
    exact lookupAssoc_updAssoc_self _ _ _
  · intro htan
    rw [hfold, ha1]
    simp only [tanpukuStep, hnum, htan]
    rw [hb1]
    rfl
  · intro hfuku
    rw [hfold, ha2]
    rw [tanpukuStep_snd_nofuku _ row h hnum hfuku, hb2]
    rfl

/-- Witness for C4 on a two-row table: row 1 has win odds 3 and place range
[2, 4] (midpoint entry, within bounds); row 2 lacks the win cell and the high
place sub-value and so appears in neither map. -/
theorem C4_place_midpoint_witness :
    (lookupAssoc (extract_tanpuku_odds
        (.table [⟨some 1, some 3, some (some 2, some 4)⟩,
          ⟨some 2, none, some (some 1, none)⟩])).2 1 =
      some (((2 : ℚ) + 4) / 2) ∧
      ((2 : ℚ) ≤ (2 + 4) / 2 ∧ ((2 : ℚ) + 4) / 2 ≤ 4)) ∧
    lookupAssoc (extract_tanpuku_odds
        (.table [⟨some 1, some 3, some (some 2, some 4)⟩,
          ⟨some 2, none, some (some 1, none)⟩])).1 1 = some 3 ∧
    lookupAssoc (extract_tanpuku_odds
        (.table [⟨some 1, some 3, some (some 2, some 4)⟩,
          ⟨some 2, none, some (some 1, none)⟩])).1 2 = none ∧
    lookupAssoc (extract_tanpuku_odds
        (.table [⟨some 1, some 3, some (some 2, some 4)⟩,
          ⟨some 2, none, some (some 1, none)⟩])).2 2 = none := by
  have h1 := C4_place_midpoint
    [⟨some 1, some 3, some (some 2, some 4)⟩, ⟨some 2, none, some (some 1, none)⟩]
    ⟨some 1, some 3, some (some 2, some 4)⟩ 1 (by simp) rfl (by decide)
  have h2 := C4_place_midpoint
    [⟨some 1, some 3, some (some 2, some 4)⟩, ⟨some 2, none, some (some 1, none)⟩]
    ⟨some 2, none, some (some 1, none)⟩ 2 (by simp) rfl (by decide)
  refine ⟨⟨(h1.1 2 4 rfl).1, (h1.1 2 4 rfl).2 (by norm_num)⟩, h1.2.1 3 rfl,
    h2.2.2.1 rfl, h2.2.2.2 ?_⟩
  intro lo hi hc
  simp at hc

/-! ### Identifier parsing -/

theorem digitVal_digitChar (k : Nat) (hk : k < 10) :
    digitVal (digitChar k) = k := by
  interval_cases k <;> decide

theorem isDigit_digitChar (k : Nat) (hk : k < 10) :
    (digitChar k).isDigit = true := by
  interval_cases k <;> decide

theorem parseNat_pad2 (v : Nat) (hv : v < 100) : parseNat (pad2 v) = v := by
  have h1 := digitVal_digitChar (v / 10 % 10) (by omega)
  have h0 := digitVal_digitChar (v % 10) (by omega)
  show (0 * 10 + digitVal (digitChar (v / 10 % 10))) * 10 +
      digitVal (digitChar (v % 10)) = v
  rw [h1, h0]
  omega

theorem parseNat_pad4 (y : Nat) (hy : y < 10000) : parseNat (pad4 y) = y := by
  have h3 := digitVal_digitChar (y / 1000 % 10) (by omega)
  have h2 := digitVal_digitChar (y / 100 % 10) (by omega)
  have h1 := digitVal_digitChar (y / 10 % 10) (by omega)
  have h0 := digitVal_digitChar (y % 10) (by omega)
  show (((0 * 10 + digitVal (digitChar (y / 1000 % 10))) * 10 +
      digitVal (digitChar (y / 100 % 10))) * 10 +
        digitVal (digitChar (y / 10 % 10))) * 10 +
          digitVal (digitChar (y % 10)) = y
  rw [h3, h2, h1, h0]
  omega

theorem sliceNat_mkRaceId_year (y v d r : Nat) (hy : y < 10000) :
    sliceNat (mkRaceId y v d r) 0 4 = y := by
  show parseNat (pad4 y) = y
  exact parseNat_pad4 y hy

theorem sliceNat_mkRaceId_venue (y v d r : Nat) (hv : v < 100) :
    sliceNat (mkRaceId y v d r) 4 6 = v := by
  show parseNat (pad2 v) = v
  exact parseNat_pad2 v hv

theorem sliceNat_mkRaceId_day (y v d r : Nat) (hd : d < 100) :
    sliceNat (mkRaceId y v d r) 6 8 = d := by
  show parseNat (pad2 d) = d
  exact parseNat_pad2 d hd

theorem sliceNat_mkRaceId_race (y v d r : Nat) (hr : r < 100) :
    sliceNat (mkRaceId y v d r) 8 10 = r := by
  show parseNat (pad2 r) = r
  exact parseNat_pad2 r hr

theorem raceIdFormatOk_mkRaceId (y v d r : Nat) :
    raceIdFormatOk (mkRaceId y v d r) = true := by
  rw [raceIdFormatOk, Bool.and_eq_true]
  refine ⟨rfl, ?_⟩
  have hdata : (mkRaceId y v d r).data =
      [digitChar (y / 1000 % 10), digitChar (y / 100 % 10),
        digitChar (y / 10 % 10), digitChar (y % 10), digitChar (v / 10 % 10),
        digitChar (v % 10), digitChar (d / 10 % 10), digitChar (d % 10),
        digitChar (r / 10 % 10), digitChar (r % 10)] := rfl
  rw [hdata]
  simp [List.all_cons, isDigit_digitChar _ (show y / 1000 % 10 < 10 by omega),
    isDigit_digitChar _ (show y / 100 % 10 < 10 by omega),
    isDigit_digitChar _ (show y / 10 % 10 < 10 by omega),
    isDigit_digitChar _ (show y % 10 < 10 by omega),
    isDigit_digitChar _ (show v / 10 % 10 < 10 by omega),
    isDigit_digitChar _ (show v % 10 < 10 by omega),
    isDigit_digitChar _ (show d / 10 % 10 < 10 by omega),
    isDigit_digitChar _ (show d % 10 < 10 by omega),
    isDigit_digitChar _ (show r / 10 % 10 < 10 by omega),
    isDigit_digitChar _ (show r % 10 < 10 by omega)]

/-- The source maps every unknown venue code to the same constant label
`不明`, while the spec's words call for an "unknown(code)" label embedding the
code: the two disagree on code 11. -/
theorem C5_identifier_parsing_counterexample :
    placeName 11 = "不明" ∧ specVenueLabel 11 = "unknown(11)" ∧
    placeName 11 ≠ specVenueLabel 11 := by
  refine ⟨rfl, by decide, by decide⟩

/-- C5 (amended).  For every identifier in the fixed 10-character format,
parsing yields the year, the venue code (mapped through the static 10-entry
venue table, with the constant placeholder `不明` — not an "unknown(code)"
label — for unknown codes), the day of meeting, and the race number, and the
identifier passes the format check; identifiers failing the 10-digit format
check are rejected by `main` before any navigation attempt. -/
theorem C5_identifier_parsing :
    (∀ y v d r, y < 10000 → v < 100 → d < 100 → r < 100 →
      (parseRaceId (mkRaceId y v d r)).year = pad4 y ∧
      sliceNat (mkRaceId y v d r) 0 4 = y ∧
      (parseRaceId (mkRaceId y v d r)).place_code = v ∧
      sliceNat (mkRaceId y v d r) 6 8 = d ∧
      (parseRaceId (mkRaceId y v d r)).race_num = r ∧
      raceIdFormatOk (mkRaceId y v d r) = true) ∧
    (∀ c n, place_mapping c = some n → placeName c = n) ∧
    (∀ c, place_mapping c = none → placeName c = "不明") ∧
    (∀ s env, raceIdFormatOk s = false → mainSingle s env = .rejected) := by
  refine ⟨?_, ?_, ?_, ?_⟩
  · intro y v d r hy hv hd hr
    exact ⟨rfl, sliceNat_mkRaceId_year y v d r hy,
      sliceNat_mkRaceId_venue y v d r hv, sliceNat_mkRaceId_day y v d r hd,
      sliceNat_mkRaceId_race y v d r hr, raceIdFormatOk_mkRaceId y v d r⟩
  · intro c n h
    rw [placeName, h]
    rfl
  · intro c h
    rw [placeName, h]
    rfl
  · intro s env h
    rw [mainSingle, h]
    rfl

/-- Witness for C5 at the identifier built from year 2025, venue 6 (中山),
meeting day 1, race 5, at venue lookups for codes 6 and 11, and at the
malformed identifier `"abc"`. -/
theorem C5_identifier_parsing_witness :
    ((parseRaceId (mkRaceId 2025 6 1 5)).year = pad4 2025 ∧
      sliceNat (mkRaceId 2025 6 1 5) 0 4 = 2025 ∧
      (parseRaceId (mkRaceId 2025 6 1 5)).place_code = 6 ∧
      sliceNat (mkRaceId 2025 6 1 5) 6 8 = 1 ∧
      (parseRaceId (mkRaceId 2025 6 1 5)).race_num = 5 ∧
      raceIdFormatOk (mkRaceId 2025 6 1 5) = true) ∧
    placeName 6 = "中山" ∧
    placeName 11 = "不明" ∧
    mainSingle "abc" (.navFail "x") = .rejected := by
  refine ⟨C5_identifier_parsing.1 2025 6 1 5 (by decide) (by decide) (by decide)
    (by decide), C5_identifier_parsing.2.1 6 "中山" rfl,
    C5_identifier_parsing.2.2.1 11 rfl,
    C5_identifier_parsing.2.2.2 "abc" (.navFail "x") (by decide)⟩

/-! ### Navigation link labels -/

/-- The meeting label the source builds for identifier `2025050112` is
`1回東京12日`: the digit pair before `日` is the race-number field (digits
9-10), not the day-of-meeting field (digits 7-8) as the claim's formula
requires, so no choice of meeting ordinal makes the claimed formula match. -/
theorem C6_nav_labels_counterexample :
    ¬ ∃ o : Nat, kaisaiName "2025050112" =
      Nat.repr o ++ "回" ++ placeName (sliceNat "2025050112" 4 6) ++
        Nat.repr (sliceNat "2025050112" 6 8) ++ "日" := by
  rintro ⟨o, ho⟩
  have h1 : kaisaiName "2025050112" = "1回東京12日" := by decide
  have h2 : placeName (sliceNat "2025050112" 4 6) = "東京" := by decide
  have h3 : Nat.repr (sliceNat "2025050112" 6 8) = "1" := by decide
  rw [h1, h2, h3] at ho
  have hdata := congrArg String.data ho
  have e1 : ("1回東京12日" : String).data =
      (['1', '回'] ++ ['東', '京', '1', '2', '日'] : List Char) := rfl
  have e2 : (Nat.repr o ++ "回" ++ "東京" ++ "1" ++ "日").data =
      (Nat.repr o).data ++ (['回', '東', '京', '1', '日'] : List Char) := by
    show ((((Nat.repr o ++ "回") ++ "東京") ++ "1") ++ "日").data = _
    rw [show ∀ a b : String, (a ++ b).data = a.data ++ b.data from fun a b => rfl]
    rw [show ∀ a b : String, (a ++ b).data = a.data ++ b.data from fun a b => rfl]
    rw [show ∀ a b : String, (a ++ b).data = a.data ++ b.data from fun a b => rfl]
    rw [show ∀ a b : String, (a ++ b).data = a.data ++ b.data from fun a b => rfl]
    simp [List.append_assoc]
  rw [e1, e2] at hdata
  obtain ⟨-, hbad⟩ := List.append_inj' hdata rfl
  exact absurd hbad (by decide)

/-- C6 (amended).  The source computes the meeting label as
`{dayOfMeetingField}回{venueName}{raceNumberField}日` — the day-of-meeting
field (digits 7-8) serves as the meeting ordinal and the race-number field
(digits 9-10) as the day — and the race label as `{raceNumberField}レース`. -/
theorem C6_nav_labels (y v d r : Nat) (_hy : y < 10000) (hv : v < 100)
    (hd : d < 100) (hr : r < 100) :
    kaisaiName (mkRaceId y v d r) =
      Nat.repr d ++ "回" ++ placeName v ++ Nat.repr r ++ "日" ∧
    raceLabel (mkRaceId y v d r) = Nat.repr r ++ "レース" := by
  rw [kaisaiName, raceLabel, sliceNat_mkRaceId_venue y v d r hv,
    sliceNat_mkRaceId_day y v d r hd, sliceNat_mkRaceId_race y v d r hr]
  exact ⟨rfl, rfl⟩

/-- Witness for C6 at year 2025, venue 5 (東京), day-of-meeting 1, race 12. -/
theorem C6_nav_labels_witness :
    kaisaiName (mkRaceId 2025 5 1 12) =
      Nat.repr 1 ++ "回" ++ placeName 5 ++ Nat.repr 12 ++ "日" ∧
    raceLabel (mkRaceId 2025 5 1 12) = Nat.repr 12 ++ "レース" :=
  C6_nav_labels 2025 5 1 12 (by decide) (by decide) (by decide) (by decide)

/-! ### Session teardown -/

/-- The claim fails on the code: when `new_page()` raises — a step after the
browser session (browser plus context) has been acquired — control passes to
the generic handler at line 102 without entering the `try/finally`, so neither
`context.close()` nor `browser.close()` runs on that exit path. -/
theorem C9_session_teardown_counterexample :
    (SessionEnv.mk true true false (.navFail "")).launchOk = true ∧
    (SessionEnv.mk true true false (.navFail "")).contextOk = true ∧
    SessionEvent.contextClose ∉
      sessionEvents (SessionEnv.mk true true false (.navFail "")) ∧
    SessionEvent.browserClose ∉
      sessionEvents (SessionEnv.mk true true false (.navFail "")) := by
  refine ⟨rfl, rfl, by decide, by decide⟩

/-- C9 (amended).  Once the page has been created, on every exit path of the
guarded block — normal return or raised error during navigation or
extraction — the context and the browser are closed, in that order, after page
creation and before the playwright scope exits; but an error in page creation
itself, although it occurs after the browser session is acquired, bypasses
both closes (only the `async with` scope exit still runs). -/
theorem C9_session_teardown (env : SessionEnv) (hl : env.launchOk = true)
    (hc : env.contextOk = true) (hp : env.pageOk = true) :
    sessionEvents env = [.pwStart, .launch, .newContext, .newPage,
      .contextClose, .browserClose, .pwStop] := by
  rw [sessionEvents, hl, hc, hp]
  rfl

/-- Witness for C9 with a session whose guarded block raises: the closes still
appear, after `newPage` and before `pwStop`. -/
theorem C9_session_teardown_witness :
    sessionEvents (SessionEnv.mk true true true (.navFail "timeout")) =
      [.pwStart, .launch, .newContext, .newPage, .contextClose, .browserClose,
        .pwStop] :=
  C9_session_teardown (SessionEnv.mk true true true (.navFail "timeout")) rfl
    rfl rfl

end UmaFriend
